import Mathlib

/-!
# Verification of the netstat-monitor sampling engine

Shallow embedding of `src/netstat_monitor.c` (single-file C program that
polls one network interface's counters from `/proc/net/dev`).

Modelling conventions:
* C strings are `List Char`; the fixed buffers of the source are modelled
  by the same explicit truncations the C code performs (`take 1023` for
  `line_copy[MAX_LINE_LEN]`, `take 63` for the `strncpy` copies into
  64-byte buffers).
* `uint64_t` values are `Nat` with explicit `% 2 ^ 64` exactly where the C
  arithmetic can wrap; `int` values that can be negative are `Int`.
* `double` values are modelled as exact rationals `ℚ`: the code only
  branches on a comparison with `0.0` and performs one division, and the
  claims under verification concern that branch structure, not rounding.
* Fallible C functions that return `bool` and fill an out-parameter are
  functions to `Bool × NetStats`, threading the unmodified out-parameter
  through every failure path exactly as the C leaves the buffer untouched.
* The file `/proc/net/dev` is an `Option (List (List Char))`: `none` is an
  `fopen` failure, and each element is one line as returned by `fgets`.
* The poll loop of `main` is a fuel-indexed small-step interpreter over an
  environment giving, per tick, the observed value of the asynchronous
  `keep_running` flag at each of its two read points and the outcome of
  `read_net_stats`.  A `sleep` is recorded as an event; per POSIX, `sleep`
  returns early when the installed `SIGINT`/`SIGTERM` handler runs, which
  the model records in the event's `interrupted` field whenever the flag
  was observed down at the guard that follows the sleep.
-/

/-- One interface's counters, mirroring `net_stats_t` (the `struct timespec`
timestamp is modelled as a single rational number of seconds). -/
structure NetStats where
  interface : List Char
  rx_bytes : Nat
  rx_packets : Nat
  rx_errors : Nat
  rx_drops : Nat
  tx_bytes : Nat
  tx_packets : Nat
  tx_errors : Nat
  tx_drops : Nat
  timestamp : ℚ
  valid : Bool
deriving DecidableEq

/-- The `{0}`-initialised `net_stats_t`: empty name, zero counters,
zero timestamp, `valid = false`. -/
def zeroNetStats : NetStats :=
  ⟨[], 0, 0, 0, 0, 0, 0, 0, 0, 0, false⟩

/-- The two characters trimmed around the label (`' '` and `'\t'`),
as in the trimming loops of `parse_interface_line`. -/
def isSpTab (c : Char) : Bool := c = ' ' || c = '\t'

/-- The `strtok_r` separator set `" \t\n\r"`. -/
def isDelim (c : Char) : Bool := c = ' ' || c = '\t' || c = '\n' || c = '\r'

/-- The C-locale `isspace` set skipped by `strtoull` before the number. -/
def isSpaceC (c : Char) : Bool :=
  c = ' ' || c = '\t' || c = '\n' || c = '\x0B' || c = '\x0C' || c = '\r'

/-- Strip trailing `' '`/`'\t'`, as the `while (len > 0 && ...)` loop of
`parse_interface_line` does. -/
def trimTrailing (cs : List Char) : List Char :=
  (cs.reverse.dropWhile isSpTab).reverse

/-- `strchr(line_copy, ':')` followed by `*colon = '\0'`: split the line at
the first colon into the label part and the numeric body; `none` when the
line has no colon. -/
def splitAtFirstColon : List Char → Option (List Char × List Char)
  | [] => none
  | c :: cs =>
    if c = ':' then some ([], cs)
    else
      match splitAtFirstColon cs with
      | none => none
      | some (l, r) => some (c :: l, r)

/-- Accumulator form of `strtok_r` tokenisation over the separator set
`" \t\n\r"`: maximal runs of non-separator characters, empty runs skipped. -/
def tokenizeAux : List Char → List Char → List (List Char)
  | [], cur => if cur = [] then [] else [cur.reverse]
  | c :: cs, cur =>
    if isDelim c then
      if cur = [] then tokenizeAux cs []
      else cur.reverse :: tokenizeAux cs []
    else tokenizeAux cs (c :: cur)

/-- All tokens `strtok_r` yields from a character list. -/
def tokenize (cs : List Char) : List (List Char) := tokenizeAux cs []

/-- Value of a big-endian decimal digit string, as `strtoull` accumulates it. -/
def digitsVal (cs : List Char) : Nat :=
  cs.foldl (fun a c => a * 10 + (c.toNat - 48)) 0

/-- One token through `strtoull(token, &endptr, 10)` followed by the code's
acceptance check `errno == 0 && *endptr == '\0'`. `strtoull` skips leading
`isspace` characters, accepts an optional sign (a minus yields the negation
of the magnitude, reduced modulo `2 ^ 64`), then consumes decimal digits;
`errno = ERANGE` when the magnitude exceeds `ULLONG_MAX`, and a nonempty
remainder means `*endptr != '\0'`.  Returns `none` exactly when the code
rejects the token. -/
def parseToken (cs : List Char) : Option Nat :=
  let cs1 := cs.dropWhile isSpaceC
  let neg := cs1.head? == some '-'
  let cs2 := if cs1.head? = some '-' ∨ cs1.head? = some '+' then cs1.tail else cs1
  let digits := cs2.takeWhile Char.isDigit
  let rest := cs2.dropWhile Char.isDigit
  if digits = [] then none
  else if rest ≠ [] then none
  else if 2 ^ 64 ≤ digitsVal digits then none
  else some (if neg then (2 ^ 64 - digitsVal digits) % 2 ^ 64 else digitsVal digits)

/-- The token loop of `parse_interface_line`:
`while (token && token_count < 16) { validate; store; }` followed by
`if (token_count < 16) return false`.  The accumulator holds the stored
values in reverse; tokens past the sixteenth are not consumed and not
validated.  Returns the sixteen stored values on success. -/
def parseBodyTokens : List (List Char) → List Nat → Option (List Nat)
  | [], acc => if acc.length < 16 then none else some acc.reverse
  | t :: ts, acc =>
    if acc.length < 16 then
      match parseToken t with
      | none => none
      | some v => parseBodyTokens ts (v :: acc)
    else some acc.reverse

/-- `parse_interface_line(line, interface, stats)`: returns the C function's
`bool` result together with the final contents of `*stats` (unchanged on
every failure path, since the C code writes the struct only after all
validation has passed). -/
def parse_interface_line (line : List Char) (interface : List Char)
    (stats : NetStats) : Bool × NetStats :=
  let line_copy := line.take 1023
  match splitAtFirstColon line_copy with
  | none => (false, stats)
  | some (left, right) =>
    let iface_start := left.dropWhile isSpTab
    let iface_name := trimTrailing (iface_start.take 63)
    if iface_name = interface then
      match parseBodyTokens (tokenize right) [] with
      | none => (false, stats)
      | some values =>
        (true,
          { stats with
            interface := interface.take 63
            rx_bytes := values.getD 0 0
            rx_packets := values.getD 1 0
            rx_errors := values.getD 2 0
            rx_drops := values.getD 3 0
            tx_bytes := values.getD 8 0
            tx_packets := values.getD 9 0
            tx_errors := values.getD 10 0
            tx_drops := values.getD 11 0
            valid := true })
    else (false, stats)

/-- The scanning loop of `read_net_stats`: try each remaining line in order,
stop at the first one `parse_interface_line` accepts, stamp it with the
current monotonic time, and leave `*stats` untouched otherwise. -/
def scanLines (lines : List (List Char)) (interface : List Char)
    (stats : NetStats) (now : ℚ) : Bool × NetStats :=
  match lines with
  | [] => (false, stats)
  | l :: ls =>
    let r := parse_interface_line l interface stats
    if r.1 then (true, { r.2 with timestamp := now })
    else scanLines ls interface stats now

/-- `read_net_stats(interface, stats)`: `none` models an `fopen` failure;
otherwise the first two header lines are skipped unconditionally and the
rest are scanned.  `now` is the value `clock_gettime(CLOCK_MONOTONIC)`
delivers on the successful row. -/
def read_net_stats (file : Option (List (List Char))) (interface : List Char)
    (stats : NetStats) (now : ℚ) : Bool × NetStats :=
  match file with
  | none => (false, stats)
  | some lines => scanLines (lines.drop 2) interface stats now

/-- `safe_delta(current, previous)` on `uint64_t`: plain subtraction when the
counter did not decrease, otherwise `(UINT64_C(0x100000000) - previous) +
current` evaluated in modulo-`2 ^ 64` machine arithmetic. -/
def safe_delta (current previous : Nat) : Nat :=
  if previous ≤ current then current - previous
  else ((2 ^ 32 + 2 ^ 64 - previous % 2 ^ 64) % 2 ^ 64 + current % 2 ^ 64) % 2 ^ 64

/-- `calculate_rate(delta, elapsed_seconds)` with `double` modelled as `ℚ`. -/
def calculate_rate (delta : Nat) (elapsed_seconds : ℚ) : ℚ :=
  if elapsed_seconds ≤ 0 then 0 else (delta : ℚ) / elapsed_seconds

/-- The second argument `main` passes to `print_stats`:
`previous_stats.valid ? &previous_stats : NULL`. -/
def mainPrevArg (previous_stats : NetStats) : Option NetStats :=
  if previous_stats.valid then some previous_stats else none

/-- The four delta/rate display fields of `print_stats` (`ΔRx`, `ΔRx(p/s)`,
`ΔTx`, `ΔTx(p/s)`): they are initialised to the `"-"` marker and overwritten
with computed rates only under `previous && previous->valid`, which `none`
models here.  `some` carries the four computed rates in the order
rx-bytes, tx-bytes, rx-packets, tx-packets. -/
def rateFields (current : NetStats) (previous : Option NetStats)
    (elapsed : ℚ) : Option (ℚ × ℚ × ℚ × ℚ) :=
  match previous with
  | none => none
  | some p =>
    if p.valid then
      some (calculate_rate (safe_delta current.rx_bytes p.rx_bytes) elapsed,
            calculate_rate (safe_delta current.tx_bytes p.tx_bytes) elapsed,
            calculate_rate (safe_delta current.rx_packets p.rx_packets) elapsed,
            calculate_rate (safe_delta current.tx_packets p.tx_packets) elapsed)
    else none

/-- Fuel-indexed digit extraction: big-endian decimal digits of `n`
(empty for `n = 0`); the fuel only forces structural termination and is
immaterial once it is at least `n`. -/
def toDecCharsAux : Nat → Nat → List Char
  | 0, _ => []
  | fuel + 1, n =>
    if n = 0 then []
    else toDecCharsAux fuel (n / 10) ++ [Char.ofNat (48 + n % 10)]

/-- Big-endian decimal digit characters of a natural number, as `printf`
with `%llu` renders a `uint64_t`. -/
def toDecChars (n : Nat) : List Char :=
  if n = 0 then ['0'] else toDecCharsAux n n

/-- Field-by-field re-serialisation of the eight counters of a snapshot, in
the order the program prints them with `%llu` (rx then tx:
bytes, packets, errors, drops). -/
def serializeCounters (s : NetStats) : List (List Char) :=
  [toDecChars s.rx_bytes, toDecChars s.rx_packets,
   toDecChars s.rx_errors, toDecChars s.rx_drops,
   toDecChars s.tx_bytes, toDecChars s.tx_packets,
   toDecChars s.tx_errors, toDecChars s.tx_drops]

/-- Join tokens with single spaces: the body of a well-formed counter row. -/
def joinSpaces : List (List Char) → List Char
  | [] => []
  | [t] => t
  | t :: ts => t ++ ' ' :: joinSpaces ts

/-- Observable events of one run of the poll loop of `main`. -/
inductive Event where
  /-- One call to `read_net_stats` and whether it succeeded. -/
  | sample (success : Bool)
  /-- One `sleep(interval)`; `interrupted` records that the cancellation
  flag was observed down at the guard following the sleep (per POSIX the
  signal handler makes `sleep` return before the interval elapses). -/
  | sleepEv (interrupted : Bool)
  /-- The loop guard failed: the run reaches the `Stopped` state. -/
  | stop
deriving DecidableEq

/-- The loop-local state of `main`. -/
structure LoopState where
  iteration : Nat
  previous_stats : NetStats
  current_stats : NetStats
deriving DecidableEq

/-- The loop guard
`keep_running && (max_iterations < 0 || iteration < max_iterations)`,
evaluated both at the top of the `while` and before the trailing `sleep`. -/
def loopGuard (keep : Bool) (maxIter : Int) (iteration : Nat) : Bool :=
  keep && (maxIter < 0 || (iteration : Int) < maxIter)

/-- Fuel-indexed interpreter of the poll loop of `main`.  `keepG t` is the
value of the volatile `keep_running` flag observed by the `while` guard of
tick `t`, `keepS t` the value observed by the pre-sleep check of tick `t`,
and `readRes t` the outcome of `read_net_stats` at tick `t` (`none` is a
failed read).  A failed read warns and sleeps without touching the snapshot
pair; a successful read bumps `iteration`, rotates the snapshot into both
`current_stats` and `previous_stats`, and sleeps only when the pre-sleep
guard still holds.  Returns the final state and the event trace. -/
def runLoop (keepG keepS : Nat → Bool) (readRes : Nat → Option NetStats)
    (maxIter : Int) : Nat → Nat → LoopState → LoopState × List Event
  | 0, _, st => (st, [])
  | fuel + 1, t, st =>
    if loopGuard (keepG t) maxIter st.iteration then
      match readRes t with
      | none =>
        let r := runLoop keepG keepS readRes maxIter fuel (t + 1) st
        (r.1, Event.sample false :: Event.sleepEv (!keepG (t + 1)) :: r.2)
      | some ns =>
        let st' : LoopState := ⟨st.iteration + 1, ns, ns⟩
        if loopGuard (keepS t) maxIter st'.iteration then
          let r := runLoop keepG keepS readRes maxIter fuel (t + 1) st'
          (r.1, Event.sample true :: Event.sleepEv (!keepG (t + 1)) :: r.2)
        else
          let r := runLoop keepG keepS readRes maxIter fuel (t + 1) st'
          (r.1, Event.sample true :: r.2)
    else (st, [Event.stop])

/-- Number of sampling attempts recorded in a trace. -/
def countSamples (evs : List Event) : Nat :=
  (evs.filter (fun e => match e with | Event.sample _ => true | _ => false)).length

/-- A bounded steady-state run: three-iteration limit, no cancellation,
every read succeeds. -/
def boundedRunTrace : LoopState × List Event :=
  runLoop (fun _ => true) (fun _ => true) (fun _ => some zeroNetStats) 3 8 0
    ⟨0, zeroNetStats, zeroNetStats⟩

/-- A lowered cancellation flag makes the loop guard fail regardless of the iteration bound. -/
theorem loopGuard_false (maxIter : Int) (iteration : Nat) :
    loopGuard false maxIter iteration = false := rfl

/-- On every failure path of `parse_interface_line`, the out-parameter `*stats` is returned untouched. -/
theorem parse_fail_unchanged (line interface : List Char) (st : NetStats)
    (h : (parse_interface_line line interface st).1 = false) :
    (parse_interface_line line interface st).2 = st := by
  simp only [parse_interface_line] at h ⊢
  cases hc : splitAtFirstColon (line.take 1023) with
  | none => simp [hc]
  | some p =>
    obtain ⟨l, r⟩ := p
    simp only [hc] at h ⊢
    by_cases hl : trimTrailing ((l.dropWhile isSpTab).take 63) = interface
    · simp only [hl, if_true] at h ⊢
      cases hb : parseBodyTokens (tokenize r) [] with
      | none => simp [hb]
      | some vs => simp [hb] at h
    · simp [hl]

/-- When the scanning loop of `read_net_stats` finds no parsable row, `*stats` is untouched. -/
theorem scanLines_fail (lines : List (List Char)) (interface : List Char)
    (st : NetStats) (now : ℚ) (h : (scanLines lines interface st now).1 = false) :
    (scanLines lines interface st now).2 = st := by
  induction lines with
  | nil => rfl
  | cons l ls ih =>
    unfold scanLines at h ⊢
    by_cases hp : (parse_interface_line l interface st).1 = true
    · simp [hp] at h
    · simp only [Bool.not_eq_true] at hp
      simp only [hp, Bool.false_eq_true, if_false] at h ⊢
      exact ih h

/-- Splitting at the first colon of `left ++ ':' :: rest` recovers `left` and `rest` when `left` is colon-free. -/
theorem splitAtFirstColon_append (left rest : List Char) (h : ':' ∉ left) :
    splitAtFirstColon (left ++ ':' :: rest) = some (left, rest) := by
  induction left with
  | nil => simp [splitAtFirstColon]
  | cons c cs ih =>
    have hc : c ≠ ':' := by
      intro e
      exact h (e ▸ List.mem_cons_self c cs)
    have hcs : ':' ∉ cs := fun m => h (List.mem_cons_of_mem _ m)
    simp [splitAtFirstColon, hc, ih hcs]

/-- The `takeWhile` of a list all of whose elements satisfy the predicate is the list itself. -/
theorem takeWhile_all {p : Char → Bool} :
    ∀ cs : List Char, (∀ c ∈ cs, p c = true) → cs.takeWhile p = cs
  | [], _ => rfl
  | c :: cs, h => by
    simp only [List.takeWhile_cons, h c (List.mem_cons_self c cs), if_true]
    exact congrArg (c :: ·) (takeWhile_all cs fun x hx => h x (List.mem_cons_of_mem _ hx))

/-- The `dropWhile` of a list all of whose elements satisfy the predicate is empty. -/
theorem dropWhile_all {p : Char → Bool} :
    ∀ cs : List Char, (∀ c ∈ cs, p c = true) → cs.dropWhile p = []
  | [], _ => rfl
  | c :: cs, h => by
    simp only [List.dropWhile_cons, h c (List.mem_cons_self c cs), if_true]
    exact dropWhile_all cs fun x hx => h x (List.mem_cons_of_mem _ hx)

/-- The tokenizer accumulates an entire separator-free run into the current token. -/
theorem tokenizeAux_run (t : List Char) (rest cur : List Char)
    (h : ∀ c ∈ t, isDelim c = false) :
    tokenizeAux (t ++ rest) cur = tokenizeAux rest (t.reverse ++ cur) := by
  induction t generalizing cur with
  | nil => simp
  | cons c cs ih =>
    have hc : isDelim c = false := h c (List.mem_cons_self c cs)
    have hcs : ∀ x ∈ cs, isDelim x = false := fun x hx => h x (List.mem_cons_of_mem _ hx)
    simp only [List.cons_append, tokenizeAux, hc, Bool.false_eq_true, if_false,
      List.append_eq]
    rw [ih _ hcs]
    simp

/-- Tokenising tokens joined by single spaces recovers exactly those tokens, when each is nonempty and separator-free. -/
theorem tokenize_joinSpaces :
    ∀ ts : List (List Char),
      (∀ t ∈ ts, t ≠ [] ∧ ∀ c ∈ t, isDelim c = false) →
      tokenize (joinSpaces ts) = ts := by
  intro ts
  induction ts with
  | nil => intro _; rfl
  | cons t ts ih =>
    intro h
    obtain ⟨hne, hnd⟩ := h t (List.mem_cons_self t ts)
    have hrev : t.reverse ≠ [] := by simpa using hne
    cases ts with
    | nil =>
      show tokenizeAux (joinSpaces [t]) [] = [t]
      have : joinSpaces [t] = t ++ [] := by simp [joinSpaces]
      rw [this, tokenizeAux_run t [] [] hnd]
      simp [tokenizeAux, hrev]
    | cons t' ts' =>
      show tokenizeAux (joinSpaces (t :: t' :: ts')) [] = t :: t' :: ts'
      have hj : joinSpaces (t :: t' :: ts') = t ++ ' ' :: joinSpaces (t' :: ts') := rfl
      rw [hj, tokenizeAux_run t _ [] hnd, List.append_nil]
      have hsp : isDelim ' ' = true := rfl
      have hstep : tokenizeAux (' ' :: joinSpaces (t' :: ts')) t.reverse =
          t.reverse.reverse :: tokenizeAux (joinSpaces (t' :: ts')) [] := by
        simp [tokenizeAux, hsp, hrev]
      rw [hstep, List.reverse_reverse,
        show tokenizeAux (joinSpaces (t' :: ts')) [] = tokenize (joinSpaces (t' :: ts'))
          from rfl,
        ih (fun x hx => h x (List.mem_cons_of_mem _ hx))]

/-- Code point of a decimal digit character. -/
theorem digit_char_toNat (d : Nat) (h : d < 10) :
    (Char.ofNat (48 + d)).toNat = 48 + d := by
  interval_cases d <;> decide

/-- A decimal digit character satisfies `Char.isDigit`. -/
theorem digit_char_isDigit (d : Nat) (h : d < 10) :
    (Char.ofNat (48 + d)).isDigit = true := by
  interval_cases d <;> decide

/-- A digit character is not a `strtok_r` separator. -/
theorem isDigit_not_delim (c : Char) (h : c.isDigit = true) : isDelim c = false := by
  rcases Bool.eq_false_or_eq_true (isDelim c) with ht | hf
  · exfalso
    simp only [isDelim, Bool.or_eq_true, decide_eq_true_eq] at ht
    rcases ht with ((h1 | h1) | h1) | h1 <;> rw [h1] at h <;> exact absurd h (by decide)
  · exact hf

/-- A digit character is not `isspace`. -/
theorem isDigit_not_spaceC (c : Char) (h : c.isDigit = true) : isSpaceC c = false := by
  rcases Bool.eq_false_or_eq_true (isSpaceC c) with ht | hf
  · exfalso
    simp only [isSpaceC, Bool.or_eq_true, decide_eq_true_eq] at ht
    rcases ht with ((((h1 | h1) | h1) | h1) | h1) | h1 <;> rw [h1] at h <;>
      exact absurd h (by decide)
  · exact hf

/-- A digit character is neither a minus nor a plus sign. -/
theorem isDigit_ne_sign (c : Char) (h : c.isDigit = true) : c ≠ '-' ∧ c ≠ '+' := by
  constructor <;> intro e <;> rw [e] at h <;> exact absurd h (by decide)

/-- Digit extraction of zero is empty at every fuel. -/
theorem toDecCharsAux_zero : ∀ fuel, toDecCharsAux fuel 0 = []
  | 0 => rfl
  | _ + 1 => by simp [toDecCharsAux]

/-- Appending one character multiplies the accumulated decimal value by ten and adds the digit. -/
theorem digitsVal_append_one (xs : List Char) (c : Char) :
    digitsVal (xs ++ [c]) = digitsVal xs * 10 + (c.toNat - 48) := by
  simp [digitsVal, List.foldl_append]

/-- With enough fuel, digit extraction of a nonzero number is a nonempty digit string whose value is the number. -/
theorem toDecCharsAux_spec :
    ∀ (fuel n : Nat), n ≤ fuel → n ≠ 0 →
      digitsVal (toDecCharsAux fuel n) = n ∧ toDecCharsAux fuel n ≠ [] ∧
        ∀ c ∈ toDecCharsAux fuel n, c.isDigit = true := by
  intro fuel
  induction fuel with
  | zero => intro n hle hne; omega
  | succ fuel ih =>
    intro n hle hne
    have hr : n % 10 < 10 := Nat.mod_lt _ (by norm_num)
    have hchr := digit_char_toNat _ hr
    have hchd := digit_char_isDigit _ hr
    simp only [toDecCharsAux]
    rw [if_neg hne]
    by_cases hq : n / 10 = 0
    · rw [hq, toDecCharsAux_zero]
      simp only [List.nil_append]
      refine ⟨?_, by simp, ?_⟩
      · have : digitsVal [Char.ofNat (48 + n % 10)] = n % 10 := by
          simp [digitsVal, hchr]
        rw [this]
        omega
      · intro c hc
        rw [List.mem_singleton] at hc
        subst hc
        exact hchd
    · have hqle : n / 10 ≤ fuel := by
        have hlt : n / 10 < n := Nat.div_lt_self (Nat.pos_of_ne_zero hne) (by norm_num)
        omega
      obtain ⟨hval, hnil, hdig⟩ := ih (n / 10) hqle hq
      refine ⟨?_, by simp, ?_⟩
      · rw [digitsVal_append_one, hval, hchr]
        omega
      · intro c hc
        rw [List.mem_append] at hc
        rcases hc with hc | hc
        · exact hdig c hc
        · rw [List.mem_singleton] at hc
          subst hc
          exact hchd

/-- Rendering a natural number in decimal and re-accumulating the digits is the identity. -/
theorem digitsVal_toDecChars (n : Nat) : digitsVal (toDecChars n) = n := by
  by_cases h : n = 0
  · subst h; decide
  · unfold toDecChars
    rw [if_neg h]
    exact (toDecCharsAux_spec n n le_rfl h).1

/-- Decimal rendering is never the empty string. -/
theorem toDecChars_ne_nil (n : Nat) : toDecChars n ≠ [] := by
  by_cases h : n = 0
  · subst h; decide
  · unfold toDecChars
    rw [if_neg h]
    exact (toDecCharsAux_spec n n le_rfl h).2.1

/-- Decimal rendering consists of digit characters only. -/
theorem toDecChars_digits (n : Nat) : ∀ c ∈ toDecChars n, c.isDigit = true := by
  by_cases h : n = 0
  · subst h; decide
  · unfold toDecChars
    rw [if_neg h]
    exact (toDecCharsAux_spec n n le_rfl h).2.2

/-- On a nonempty all-digit token below `2 ^ 64`, `strtoull` acceptance yields exactly the decimal value. -/
theorem parseToken_digits (cs : List Char) (hne : cs ≠ [])
    (hdig : ∀ c ∈ cs, c.isDigit = true) (hlt : digitsVal cs < 2 ^ 64) :
    parseToken cs = some (digitsVal cs) := by
  obtain ⟨c, cs', rfl⟩ : ∃ c cs', cs = c :: cs' := by
    cases cs with
    | nil => exact absurd rfl hne
    | cons c cs' => exact ⟨c, cs', rfl⟩
  have hcd : c.isDigit = true := hdig c (List.mem_cons_self c cs')
  have hdw : (c :: cs').dropWhile isSpaceC = c :: cs' := by
    rw [List.dropWhile_cons]
    simp [isDigit_not_spaceC c hcd]
  have hsign := isDigit_ne_sign c hcd
  have htk := takeWhile_all (p := Char.isDigit) (c :: cs') hdig
  have hdr := dropWhile_all (p := Char.isDigit) (c :: cs') hdig
  have hcond : ¬((c :: cs').head? = some '-' ∨ (c :: cs').head? = some '+') := by
    simp only [List.head?_cons]
    rintro (e | e) <;> injection e with e
    · exact hsign.1 e
    · exact hsign.2 e
  have hneg : ((c :: cs').head? == some '-') = false := by
    simp [hsign.1]
  simp only [parseToken, hdw, hneg, if_neg hcond, htk, hdr]
  rw [if_neg (by simp)]
  rw [if_neg (by simp)]
  rw [if_neg (by omega)]
  simp

/-- The token loop succeeds exactly when enough tokens remain and every token it examines (up to the sixteen-token cap) parses. -/
theorem parseBodyTokens_isSome :
    ∀ (toks : List (List Char)) (acc : List Nat), acc.length ≤ 16 →
      ((parseBodyTokens toks acc).isSome = true ↔
        (16 - acc.length ≤ toks.length ∧
          ∀ t ∈ toks.take (16 - acc.length), (parseToken t).isSome = true)) := by
  intro toks
  induction toks with
  | nil =>
    intro acc hacc
    simp only [parseBodyTokens, List.length_nil, List.take_nil, List.not_mem_nil,
      false_implies, implies_true, and_true]
    by_cases h : acc.length < 16
    · rw [if_pos h]
      simp only [Option.isSome_none, Bool.false_eq_true, false_iff]
      omega
    · rw [if_neg h]
      simp only [Option.isSome_some, true_iff]
      omega
  | cons t ts ih =>
    intro acc hacc
    simp only [parseBodyTokens]
    by_cases h : acc.length < 16
    · rw [if_pos h]
      have hpos : 16 - acc.length = (16 - (acc.length + 1)) + 1 := by omega
      rw [hpos, List.take_succ_cons]
      cases hp : parseToken t with
      | none =>
        simp only [Option.isSome_none, Bool.false_eq_true, false_iff]
        rintro ⟨hlen, hall⟩
        have ht := hall t (List.mem_cons_self _ _)
        rw [hp] at ht
        exact absurd ht (by simp)
      | some v =>
        rw [ih (v :: acc) (by simp; omega)]
        simp only [List.length_cons, List.length_cons]
        constructor
        · rintro ⟨hlen, hall⟩
          refine ⟨by omega, ?_⟩
          intro x hx
          rcases List.mem_cons.mp hx with rfl | hx'
          · rw [hp]; simp
          · exact hall x hx'
        · rintro ⟨hlen, hall⟩
          exact ⟨by omega, fun x hx => hall x (List.mem_cons_of_mem _ hx)⟩
    · rw [if_neg h]
      have h16 : acc.length = 16 := by omega
      simp [h16]

/-- The token loop maps decimal renderings of sixteen in-range values back to exactly those values. -/
theorem parseBodyTokens_values :
    ∀ (vs : List Nat) (acc : List Nat), acc.length + vs.length = 16 →
      (∀ v ∈ vs, v < 2 ^ 64) →
      parseBodyTokens (vs.map toDecChars) acc = some (acc.reverse ++ vs) := by
  intro vs
  induction vs with
  | nil =>
    intro acc hlen _
    simp only [List.length_nil] at hlen
    simp only [List.map_nil, parseBodyTokens]
    rw [if_neg (by omega)]
    simp
  | cons v vs ih =>
    intro acc hlen hlt
    simp only [List.length_cons] at hlen
    simp only [List.map_cons, parseBodyTokens]
    rw [if_pos (by omega)]
    have hv : parseToken (toDecChars v) = some v := by
      rw [parseToken_digits (toDecChars v) (toDecChars_ne_nil v) (toDecChars_digits v)
          (by rw [digitsVal_toDecChars]; exact hlt v (List.mem_cons_self _ _)),
        digitsVal_toDecChars]
    rw [hv]
    show parseBodyTokens (List.map toDecChars vs) (v :: acc) = _
    rw [ih (v :: acc) (by simp; omega) (fun x hx => hlt x (List.mem_cons_of_mem _ hx))]
    simp
/-- C3 (amended): when the counter did not decrease, `safe_delta` is plain subtraction; in the wrap branch the result equals `(2^32 - previous) + current` as plain integer arithmetic whenever `previous ≤ 2^32`, and in general equals that expression reduced modulo `2^64`, because the C subtraction `0x100000000 - previous` is performed in `uint64_t`. -/
theorem C3_amended (current previous : Nat) :
    (previous ≤ current → safe_delta current previous = current - previous) ∧
    (current < previous → previous ≤ 2 ^ 32 →
      (safe_delta current previous : Int) = 2 ^ 32 - previous + current) ∧
    (current < previous → previous < 2 ^ 64 → current < 2 ^ 64 →
      (safe_delta current previous : Int) = (2 ^ 32 - previous + current) % 2 ^ 64) := by
  refine ⟨fun h => by simp [safe_delta, h], ?_, ?_⟩
  · intro h hp
    simp only [safe_delta, if_neg (not_le.mpr h)]
    have h32 : (2 : Nat) ^ 32 = 4294967296 := by norm_num
    have h64 : (2 : Nat) ^ 64 = 18446744073709551616 := by norm_num
    simp only [h32, h64] at *
    omega
  · intro h hp hc
    simp only [safe_delta, if_neg (not_le.mpr h)]
    have h32 : (2 : Nat) ^ 32 = 4294967296 := by norm_num
    have h64 : (2 : Nat) ^ 64 = 18446744073709551616 := by norm_num
    have h32i : (2 : Int) ^ 32 = 4294967296 := by norm_num
    have h64i : (2 : Int) ^ 64 = 18446744073709551616 := by norm_num
    simp only [h32, h64, h32i, h64i] at *
    omega

/-- C3 counterexample: at `current = 5`, `previous = 2^33` the code returns `2^64 - 2^32 + 5`, not the plain-arithmetic value `(2^32 - 2^33) + 5`, which is negative; the claimed formula read over the integers fails for `previous > 2^32`. -/
theorem C3_counterexample :
    (5 : Nat) < 2 ^ 33 ∧ (safe_delta 5 (2 ^ 33) : Int) ≠ 2 ^ 32 - 2 ^ 33 + 5 ∧
    safe_delta 5 (2 ^ 33) = 18446744069414584325 := by decide

/-- C3 witness: the amended wrap formula instantiated at the claim's own example `previous = 4294967290`, `current = 10`, giving delta 16. -/
theorem C3_witness :
    (10 : Nat) < 4294967290 ∧ (4294967290 : Nat) ≤ 2 ^ 32 ∧
    (safe_delta 10 4294967290 : Int) = 2 ^ 32 - 4294967290 + 10 ∧
    safe_delta 10 4294967290 = 16 :=
  ⟨by norm_num, by norm_num,
    (C3_amended 10 4294967290).2.1 (by norm_num) (by norm_num), by decide⟩

/-- C4: `calculate_rate` returns exactly 0 whenever the elapsed time is nonpositive, and the quotient of the delta by the elapsed seconds whenever the elapsed time is positive (doubles modelled as exact rationals). -/
theorem C4_rate (delta : Nat) (elapsed : ℚ) :
    (elapsed ≤ 0 → calculate_rate delta elapsed = 0) ∧
    (0 < elapsed → calculate_rate delta elapsed = (delta : ℚ) / elapsed) := by
  constructor
  · intro h; simp [calculate_rate, h]
  · intro h; simp [calculate_rate, not_le.mpr h]

/-- C4 witness: the rate rule instantiated at the spec's example 2048 bytes over 2 seconds, and at nonpositive elapsed times. -/
theorem C4_witness : calculate_rate 2048 2 = 1024 ∧ calculate_rate 7 (-3) = 0 ∧
    calculate_rate 7 0 = 0 := by
  refine ⟨?_, (C4_rate 7 (-3)).1 (by norm_num), (C4_rate 7 0).1 (by norm_num)⟩
  rw [(C4_rate 2048 2).2 (by norm_num)]; norm_num

/-- C5: whenever the retained previous snapshot is invalid — in particular on the first tick, where it is the zero-initialised placeholder — `main` passes NULL to `print_stats` and all four delta/rate display fields keep their explicit unavailable marker; no delta or rate is computed, and the marker is not a numeric zero. -/
theorem C5_first_tick (current : NetStats) (elapsed : ℚ) (previous_stats : NetStats)
    (h : previous_stats.valid = false) :
    mainPrevArg previous_stats = none ∧
    rateFields current (mainPrevArg previous_stats) elapsed = none ∧
    zeroNetStats.valid = false := by
  have hm : mainPrevArg previous_stats = none := by simp [mainPrevArg, h]
  exact ⟨hm, by rw [hm]; rfl, rfl⟩

/-- C5 witness: the first-tick marker property instantiated on the zero-initialised snapshot pair. -/
theorem C5_witness :
    rateFields zeroNetStats (mainPrevArg zeroNetStats) 2 = none :=
  (C5_first_tick zeroNetStats 2 zeroNetStats rfl).2.1

/-- C6: reading a snapshot is all-or-nothing — `parse_interface_line` and `read_net_stats` leave the output snapshot untouched on every failure, and a failed read inside the poll loop proceeds to the sleep with the loop state (previous and current snapshots, iteration count) unchanged. -/
theorem C6_all_or_nothing :
    (∀ line interface st, (parse_interface_line line interface st).1 = false →
      (parse_interface_line line interface st).2 = st) ∧
    (∀ file interface st now, (read_net_stats file interface st now).1 = false →
      (read_net_stats file interface st now).2 = st) ∧
    (∀ keepG keepS readRes maxIter fuel t st,
      loopGuard (keepG t) maxIter st.iteration = true → readRes t = none →
      runLoop keepG keepS readRes maxIter (fuel + 1) t st =
        ((runLoop keepG keepS readRes maxIter fuel (t + 1) st).1,
          Event.sample false :: Event.sleepEv (!keepG (t + 1)) ::
            (runLoop keepG keepS readRes maxIter fuel (t + 1) st).2)) := by
  refine ⟨parse_fail_unchanged, ?_, ?_⟩
  · intro file interface st now h
    match file with
    | none => rfl
    | some lines =>
      exact scanLines_fail _ _ _ _ h
  · intro keepG keepS readRes maxIter fuel t st hg hr
    simp [runLoop, hg, hr]

/-- C6 witness: the all-or-nothing properties instantiated on a non-matching row, an empty counter file, and a failing read inside the loop. -/
theorem C6_witness :
    (parse_interface_line "lo: 1".toList "eth0".toList zeroNetStats).2 = zeroNetStats ∧
    (read_net_stats (some []) "eth0".toList zeroNetStats 0).2 = zeroNetStats ∧
    runLoop (fun _ => true) (fun _ => true) (fun _ => none) (-1) 1 0
        ⟨0, zeroNetStats, zeroNetStats⟩ =
      ((runLoop (fun _ => true) (fun _ => true) (fun _ => none) (-1) 0 1
          ⟨0, zeroNetStats, zeroNetStats⟩).1,
        Event.sample false :: Event.sleepEv false ::
          (runLoop (fun _ => true) (fun _ => true) (fun _ => none) (-1) 0 1
            ⟨0, zeroNetStats, zeroNetStats⟩).2) := by
  refine ⟨C6_all_or_nothing.1 _ _ _ (by decide), C6_all_or_nothing.2.1 _ _ _ _ (by decide), ?_⟩
  have h := C6_all_or_nothing.2.2 (fun _ => true) (fun _ => true) (fun _ => none) (-1) 0 0
    ⟨0, zeroNetStats, zeroNetStats⟩ (by decide) rfl
  simpa using h

/-- C7: a bounded run with maximum iteration count 3, no cancellation and successful reads performs exactly 3 sampling attempts and then stops; in general the loop guard fails exactly when the cancellation flag is down or a nonnegative iteration bound has been reached, and a failed guard stops the loop immediately. -/
theorem C7_bounded_run :
    (countSamples boundedRunTrace.2 = 3 ∧
     boundedRunTrace.2.getLast? = some Event.stop ∧
     boundedRunTrace.1.iteration = 3) ∧
    (∀ keep maxIter iteration, loopGuard keep maxIter iteration = false ↔
      (keep = false ∨ (0 ≤ maxIter ∧ maxIter ≤ iteration))) ∧
    (∀ keepG keepS readRes maxIter fuel t st,
      loopGuard (keepG t) maxIter st.iteration = false →
      runLoop keepG keepS readRes maxIter (fuel + 1) t st = (st, [Event.stop])) := by
  refine ⟨by decide, ?_, ?_⟩
  · intro keep maxIter iteration
    cases keep <;> simp [loopGuard]
  · intro keepG keepS readRes maxIter fuel t st hg
    simp [runLoop, hg]

/-- C7 witness: the immediate-stop property instantiated with a lowered flag, and the guard characterisation instantiated at the bound 3. -/
theorem C7_witness :
    runLoop (fun _ => false) (fun _ => true) (fun _ => none) 3 1 0
      ⟨0, zeroNetStats, zeroNetStats⟩ = (⟨0, zeroNetStats, zeroNetStats⟩, [Event.stop]) ∧
    loopGuard false 3 0 = false :=
  ⟨C7_bounded_run.2.2 _ _ _ _ 0 0 _ (by decide),
   (C7_bounded_run.2.1 false 3 0).mpr (Or.inl rfl)⟩

/-- C8: if the cancellation flag is observed down at the guard following a sleep — the signal arrived during the sleep, which per POSIX returns early — the loop stops immediately: the sleep event is marked interrupted, the trace ends, and no further sampling attempt occurs after the cancellation is observed. -/
theorem C8_cancel_in_sleep (keepG keepS : Nat → Bool) (readRes : Nat → Option NetStats)
    (maxIter : Int) (fuel t : Nat) (st : LoopState) (ns : NetStats)
    (hg : loopGuard (keepG t) maxIter st.iteration = true)
    (hr : readRes t = some ns)
    (hs : loopGuard (keepS t) maxIter (st.iteration + 1) = true)
    (hc : keepG (t + 1) = false) :
    runLoop keepG keepS readRes maxIter (fuel + 2) t st =
      (⟨st.iteration + 1, ns, ns⟩,
        [Event.sample true, Event.sleepEv true, Event.stop]) ∧
    countSamples [Event.sleepEv true, Event.stop] = 0 := by
  refine ⟨?_, rfl⟩
  show runLoop keepG keepS readRes maxIter (fuel + 1 + 1) t st = _
  simp only [runLoop, hg, hr, hs, hc, loopGuard_false, Bool.not_false, if_true,
    Bool.false_eq_true, if_false]

/-- C8 witness: the cancellation-during-sleep property instantiated with a flag that drops after tick 0. -/
theorem C8_witness :
    runLoop (fun t => t == 0) (fun _ => true) (fun _ => some zeroNetStats) (-1) 5 0
        ⟨0, zeroNetStats, zeroNetStats⟩ =
      (⟨1, zeroNetStats, zeroNetStats⟩,
        [Event.sample true, Event.sleepEv true, Event.stop]) ∧
    countSamples [Event.sleepEv true, Event.stop] = 0 :=
  C8_cancel_in_sleep (fun t => t == 0) (fun _ => true) (fun _ => some zeroNetStats)
    (-1) 3 0 ⟨0, zeroNetStats, zeroNetStats⟩ zeroNetStats
    (by decide) rfl (by decide) (by decide)

/-- C10 (amended): `safe_delta` is total on 64-bit inputs and closed in the 64-bit range; in the wrap branch the result equals `(current - previous + 2^32) mod 2^64`; it is an implausibly enormous value, exceeding `2^32`, exactly in the cases where the counter fell by more than `2^32` — not for every `previous ≥ 2^32`. -/
theorem C10_amended (current previous : Nat) (h1 : current < previous)
    (h2 : previous < 2 ^ 64) (h3 : current < 2 ^ 64) :
    safe_delta current previous < 2 ^ 64 ∧
    (safe_delta current previous : Int) = ((current : Int) - previous + 2 ^ 32) % 2 ^ 64 ∧
    (2 ^ 32 < previous - current → 2 ^ 32 < safe_delta current previous) := by
  simp only [safe_delta, if_neg (not_le.mpr h1)]
  have h32 : (2 : Nat) ^ 32 = 4294967296 := by norm_num
  have h64 : (2 : Nat) ^ 64 = 18446744073709551616 := by norm_num
  have h32i : (2 : Int) ^ 32 = 4294967296 := by norm_num
  have h64i : (2 : Int) ^ 64 = 18446744073709551616 := by norm_num
  simp only [h32, h64, h32i, h64i] at *
  refine ⟨by omega, by omega, by omega⟩

/-- C10 counterexample: at `current = 2^33 - 1`, `previous = 2^33` the claim's hypotheses hold (`current < previous` and `previous ≥ 2^32`), yet the returned delta is `2^32 - 1`, a plausible value not exceeding `2^32`: the intermediate underflow is cancelled by the final addition, refuting the claimed enormity for every such pair. -/
theorem C10_counterexample :
    (8589934591 : Nat) < 8589934592 ∧ 2 ^ 32 ≤ (8589934592 : Nat) ∧
    safe_delta 8589934591 8589934592 = 4294967295 ∧
    ¬ 2 ^ 32 < safe_delta 8589934591 8589934592 := by decide

/-- C10 witness: the amended statement instantiated where the counter fell by more than `2^32`, producing a delta exceeding `2^32`. -/
theorem C10_witness :
    safe_delta 4294967290 18446744073709551615 < 2 ^ 64 ∧
    (safe_delta 4294967290 18446744073709551615 : Int) =
      ((4294967290 : Int) - 18446744073709551615 + 2 ^ 32) % 2 ^ 64 ∧
    2 ^ 32 < safe_delta 4294967290 18446744073709551615 := by
  have h := C10_amended 4294967290 18446744073709551615 (by norm_num) (by norm_num) (by norm_num)
  exact ⟨h.1, h.2.1, h.2.2 (by norm_num)⟩
/-- C1 (amended): for a row whose label matches the requested interface and fits the line buffer, parsing succeeds if and only if the body after the colon tokenises into at least 16 tokens whose first 16 all pass the strtoull acceptance check; 15 tokens therefore fail, while extra tokens past the sixteenth are ignored rather than rejected. -/
theorem C1_token_count (interface body : List Char) (st : NetStats)
    (hcol : ':' ∉ interface)
    (hname : trimTrailing ((interface.dropWhile isSpTab).take 63) = interface)
    (hlen : (interface ++ ':' :: body).length ≤ 1023) :
    ((parse_interface_line (interface ++ ':' :: body) interface st).1 = true ↔
      (16 ≤ (tokenize body).length ∧
        ∀ t ∈ (tokenize body).take 16, (parseToken t).isSome = true)) := by
  have htake : (interface ++ ':' :: body).take 1023 = interface ++ ':' :: body :=
    List.take_of_length_le hlen
  simp only [parse_interface_line, htake, splitAtFirstColon_append _ _ hcol, hname, if_true]
  rw [show (16 : Nat) = 16 - ([] : List Nat).length by rfl]
  rw [← parseBodyTokens_isSome (tokenize body) [] (by simp)]
  cases parseBodyTokens (tokenize body) [] <;> simp

/-- C1 counterexample: a matching row whose body holds 17 numeric tokens is accepted by `parse_interface_line`, refuting the claim that a 17-token body is a parse failure. -/
theorem C1_counterexample :
    tokenize " 1 2 3 4 5 6 7 8 9 10 11 12 13 14 15 16 17".toList =
      [['1'], ['2'], ['3'], ['4'], ['5'], ['6'], ['7'], ['8'], ['9'], ['1', '0'],
       ['1', '1'], ['1', '2'], ['1', '3'], ['1', '4'], ['1', '5'], ['1', '6'], ['1', '7']] ∧
    (tokenize " 1 2 3 4 5 6 7 8 9 10 11 12 13 14 15 16 17".toList).length = 17 ∧
    (parse_interface_line "eth0: 1 2 3 4 5 6 7 8 9 10 11 12 13 14 15 16 17".toList
      "eth0".toList zeroNetStats).1 = true := by decide

/-- C1 witness: the amended equivalence instantiated on a concrete matching row with 16 tokens (success) and one with 14 tokens (failure). -/
theorem C1_witness :
    (parse_interface_line ("eth0".toList ++ ':' :: " 1 2 3 4 5 6 7 8 9 10 11 12 13 14 15 16".toList)
      "eth0".toList zeroNetStats).1 = true ∧
    (parse_interface_line ("eth0".toList ++ ':' :: " 1 2 3 4 5 6 7 8 9 10 11 12 13 14".toList)
      "eth0".toList zeroNetStats).1 = false := by
  constructor
  · exact (C1_token_count "eth0".toList " 1 2 3 4 5 6 7 8 9 10 11 12 13 14 15 16".toList
      zeroNetStats (by decide) (by decide) (by decide)).mpr (by decide)
  · have h := C1_token_count "eth0".toList " 1 2 3 4 5 6 7 8 9 10 11 12 13 14".toList
      zeroNetStats (by decide) (by decide) (by decide)
    rw [Bool.eq_false_iff]
    intro e
    have := h.mp e
    revert this
    decide

/-- C2 (amended): a row on which `parse_interface_line` fails, whether because its label does not match or because its label matches and its body is malformed, is simply skipped: `read_net_stats` continues scanning the subsequent rows unchanged; no distinct hard error is raised for a matched-but-malformed row. -/
theorem C2_skip (h1 h2 bad : List Char) (rest : List (List Char))
    (interface : List Char) (st : NetStats) (now : ℚ)
    (h : (parse_interface_line bad interface st).1 = false) :
    read_net_stats (some (h1 :: h2 :: bad :: rest)) interface st now =
      read_net_stats (some (h1 :: h2 :: rest)) interface st now := by
  show scanLines ((h1 :: h2 :: bad :: rest).drop 2) interface st now =
    scanLines ((h1 :: h2 :: rest).drop 2) interface st now
  simp only [List.drop_succ_cons, List.drop_zero]
  show scanLines (bad :: rest) interface st now = scanLines rest interface st now
  have hstep : scanLines (bad :: rest) interface st now =
      if (parse_interface_line bad interface st).1 = true then
        (true, { (parse_interface_line bad interface st).2 with timestamp := now })
      else scanLines rest interface st now := rfl
  rw [hstep, h]
  simp

/-- C2 counterexample: a row whose label is exactly the requested interface but whose body has only 15 tokens fails to parse, yet the reader keeps scanning and succeeds on a later matching row, refuting the claim that a matched-but-malformed row is a hard error that stops the scan. -/
theorem C2_counterexample :
    (parse_interface_line "eth0: 1 2 3 4 5 6 7 8 9 10 11 12 13 14 15".toList
      "eth0".toList zeroNetStats).1 = false ∧
    splitAtFirstColon "eth0: 1 2 3 4 5 6 7 8 9 10 11 12 13 14 15".toList =
      some ("eth0".toList, " 1 2 3 4 5 6 7 8 9 10 11 12 13 14 15".toList) ∧
    (read_net_stats (some ["Inter-|".toList, " face |".toList,
      "eth0: 1 2 3 4 5 6 7 8 9 10 11 12 13 14 15".toList,
      "eth0: 100 2 3 4 5 6 7 8 9 10 11 12 13 14 15 16".toList])
      "eth0".toList zeroNetStats 0).1 = true ∧
    (read_net_stats (some ["Inter-|".toList, " face |".toList,
      "eth0: 1 2 3 4 5 6 7 8 9 10 11 12 13 14 15".toList,
      "eth0: 100 2 3 4 5 6 7 8 9 10 11 12 13 14 15 16".toList])
      "eth0".toList zeroNetStats 0).2.rx_bytes = 100 := by decide

/-- C2 witness: the amended skip property instantiated on a concrete file whose third row has a non-matching label. -/
theorem C2_witness :
    read_net_stats (some ["Inter-|".toList, " face |".toList, "lo: garbage".toList,
        "eth0: 1 2 3 4 5 6 7 8 9 10 11 12 13 14 15 16".toList])
      "eth0".toList zeroNetStats 0 =
    read_net_stats (some ["Inter-|".toList, " face |".toList,
        "eth0: 1 2 3 4 5 6 7 8 9 10 11 12 13 14 15 16".toList])
      "eth0".toList zeroNetStats 0 :=
  C2_skip _ _ _ _ _ _ _ (by decide)

/-- C9: parsing a well-formed row built from a matching label and sixteen decimal counters below 2^64 succeeds, fills the snapshot from token indices 0 to 3 (rx) and 8 to 11 (tx), and re-serialising the eight counter fields in decimal reproduces those tokens exactly, with no precision loss. -/
theorem C9_roundtrip (interface : List Char) (vs : List Nat) (st : NetStats)
    (hcol : ':' ∉ interface)
    (hname : trimTrailing ((interface.dropWhile isSpTab).take 63) = interface)
    (h16 : vs.length = 16) (hlt : ∀ v ∈ vs, v < 2 ^ 64)
    (hlen : (interface ++ ':' :: joinSpaces (vs.map toDecChars)).length ≤ 1023) :
    (parse_interface_line (interface ++ ':' :: joinSpaces (vs.map toDecChars))
        interface st).1 = true ∧
    ((parse_interface_line (interface ++ ':' :: joinSpaces (vs.map toDecChars))
        interface st).2.rx_bytes = vs.getD 0 0 ∧
     (parse_interface_line (interface ++ ':' :: joinSpaces (vs.map toDecChars))
        interface st).2.rx_packets = vs.getD 1 0 ∧
     (parse_interface_line (interface ++ ':' :: joinSpaces (vs.map toDecChars))
        interface st).2.rx_errors = vs.getD 2 0 ∧
     (parse_interface_line (interface ++ ':' :: joinSpaces (vs.map toDecChars))
        interface st).2.rx_drops = vs.getD 3 0 ∧
     (parse_interface_line (interface ++ ':' :: joinSpaces (vs.map toDecChars))
        interface st).2.tx_bytes = vs.getD 8 0 ∧
     (parse_interface_line (interface ++ ':' :: joinSpaces (vs.map toDecChars))
        interface st).2.tx_packets = vs.getD 9 0 ∧
     (parse_interface_line (interface ++ ':' :: joinSpaces (vs.map toDecChars))
        interface st).2.tx_errors = vs.getD 10 0 ∧
     (parse_interface_line (interface ++ ':' :: joinSpaces (vs.map toDecChars))
        interface st).2.tx_drops = vs.getD 11 0) ∧
    serializeCounters (parse_interface_line (interface ++ ':' ::
        joinSpaces (vs.map toDecChars)) interface st).2 =
      [toDecChars (vs.getD 0 0), toDecChars (vs.getD 1 0), toDecChars (vs.getD 2 0),
       toDecChars (vs.getD 3 0), toDecChars (vs.getD 8 0), toDecChars (vs.getD 9 0),
       toDecChars (vs.getD 10 0), toDecChars (vs.getD 11 0)] := by
  have htoks : tokenize (joinSpaces (vs.map toDecChars)) = vs.map toDecChars :=
    tokenize_joinSpaces _ (by
      intro t ht
      rw [List.mem_map] at ht
      obtain ⟨v, hv, rfl⟩ := ht
      exact ⟨toDecChars_ne_nil v,
        fun c hc => isDigit_not_delim c (toDecChars_digits v c hc)⟩)
  have hbody : parseBodyTokens (vs.map toDecChars) [] = some vs := by
    have := parseBodyTokens_values vs [] (by simp [h16]) hlt
    simpa using this
  have htake := List.take_of_length_le hlen
  simp only [parse_interface_line, htake, splitAtFirstColon_append _ _ hcol, hname,
    if_true, htoks, hbody]
  simp [serializeCounters]

/-- C9 witness: the round trip instantiated on a concrete row that includes the largest 64-bit value. -/
theorem C9_witness :
    (parse_interface_line ("eth0".toList ++ ':' :: joinSpaces
        ([1000, 2, 3, 4, 5, 6, 7, 8, 18446744073709551615, 10, 11, 12, 13, 14, 15, 16].map
          toDecChars)) "eth0".toList zeroNetStats).1 = true ∧
    (parse_interface_line ("eth0".toList ++ ':' :: joinSpaces
        ([1000, 2, 3, 4, 5, 6, 7, 8, 18446744073709551615, 10, 11, 12, 13, 14, 15, 16].map
          toDecChars)) "eth0".toList zeroNetStats).2.rx_bytes = 1000 ∧
    (parse_interface_line ("eth0".toList ++ ':' :: joinSpaces
        ([1000, 2, 3, 4, 5, 6, 7, 8, 18446744073709551615, 10, 11, 12, 13, 14, 15, 16].map
          toDecChars)) "eth0".toList zeroNetStats).2.tx_bytes = 18446744073709551615 := by
  have h := C9_roundtrip "eth0".toList
    [1000, 2, 3, 4, 5, 6, 7, 8, 18446744073709551615, 10, 11, 12, 13, 14, 15, 16]
    zeroNetStats (by decide) (by decide) (by decide) (by decide) (by decide)
  exact ⟨h.1, h.2.1.1, h.2.1.2.2.2.2.1⟩
